import Mathlib

/-!
Verification of the geometry and selection-state logic of `pdf_rect_picker.py`
(a PyQt6 + PyMuPDF rectangle-picking viewer).

The embedding uses exact rational arithmetic (`ℚ`) in place of Python floats;
every Python float literal appearing in the code (`1.25`, `6.0`, `0.2`) is an
exact rational here.  Screen pixel coordinates coming from mouse events are
integers (`ℤ`), as `QPoint` stores `int`s.

Library semantics embedded from their documented behaviour:
* `fitz.Rect.width` / `fitz.Rect.height` are `max(0, x1 - x0)` / `max(0, y1 - y0)`
  (PyMuPDF ≥ 1.19).
* `fitz.Rect.__bool__` is `False` exactly when all four coordinates are `0`.
* `QRect(p1, p2)` stores corners; `QRect.normalized()` (Qt 6) swaps the x pair
  when `x2 < x1` and the y pair when `y2 < y1`; converting a `QRect` to a
  `QRectF` uses `width() = x2 - x1 + 1` and `height() = y2 - y1 + 1`.
* `QRectF.normalized()` produces the rectangle with non-negative width/height.
-/

/-- A rectangle given by two corner points, modelling both `fitz.Rect`
and `QRectF` (coordinates `x0, y0, x1, y1`). -/
structure Rect where
  x0 : ℚ
  y0 : ℚ
  x1 : ℚ
  y1 : ℚ
deriving DecidableEq, Repr

/-- `fitz.Rect.width` (PyMuPDF ≥ 1.19): `max(0, x1 - x0)`. -/
def Rect.width (r : Rect) : ℚ := max 0 (r.x1 - r.x0)

/-- `fitz.Rect.height` (PyMuPDF ≥ 1.19): `max(0, y1 - y0)`. -/
def Rect.height (r : Rect) : ℚ := max 0 (r.y1 - r.y0)

/-- The all-zero rectangle: the unique falsy `fitz.Rect`
(`Rect.__bool__` is `False` iff all coordinates are `0`). -/
def zeroRect : Rect := ⟨0, 0, 0, 0⟩

/-- Truthiness of an optional `fitz.Rect` (`if not self.page_rect: ...`):
`False` for `None` and for the all-zero rectangle. -/
def rectTruthy : Option Rect → Bool
  | none => false
  | some r => decide (r ≠ zeroRect)

/-- `QRectF.normalized()`: swap corners so width and height are non-negative. -/
def qnormalized (r : Rect) : Rect :=
  ⟨min r.x0 r.x1, min r.y0 r.y1, max r.x0 r.x1, max r.y0 r.y1⟩

/-- The candidate page rectangle `_widget_rect_to_pdf` builds before its
degeneracy test: un-project the widget rectangle (subtract the centering
offset, divide by the scale), normalize, and clamp each edge independently
to the page bounds.  `rect` is a `QRectF`, so its `left/top/width/height`
are `x0 / y0 / (x1 - x0) / (y1 - y0)`. -/
def norm_clamped (page_rect : Rect) (scale : ℚ) (off : ℚ × ℚ) (rect : Rect) : Rect :=
  let x0 := (rect.x0 - off.1) / scale
  let y0 := (rect.y0 - off.2) / scale
  let x1 := x0 + (rect.x1 - rect.x0) / scale
  let y1 := y0 + (rect.y1 - rect.y0) / scale
  let norm : Rect := ⟨min x0 x1, min y0 y1, max x0 x1, max y0 y1⟩
  ⟨max page_rect.x0 norm.x0, max page_rect.y0 norm.y0,
   min page_rect.x1 norm.x1, min page_rect.y1 norm.y1⟩

/-- `PdfViewerWidget._widget_rect_to_pdf`: widget (screen) rectangle to page
rectangle.  Returns `none` when no page rectangle is set (`if not
self.page_rect`), or when the clamped rectangle has width or height
exactly `0`. -/
def widget_rect_to_pdf (page_rect : Option Rect) (scale : ℚ) (off : ℚ × ℚ)
    (rect : Rect) : Option Rect :=
  if rectTruthy page_rect = false then none
  else
    match page_rect with
    | none => none
    | some pg =>
      let clamped := norm_clamped pg scale off rect
      if clamped.width = 0 ∨ clamped.height = 0 then none
      else some clamped

/-- `PdfViewerWidget._pdf_rect_to_widget`: page rectangle to widget (screen)
rectangle — multiply by the scale, add the centering offset, normalize. -/
def pdf_rect_to_widget (scale : ℚ) (off : ℚ × ℚ) (rect : Rect) : Rect :=
  qnormalized ⟨rect.x0 * scale + off.1, rect.y0 * scale + off.2,
               rect.x1 * scale + off.1, rect.y1 * scale + off.2⟩

/-- A page rectangle `r` is a valid selection for page bounds `pg`:
normalized with nonzero (positive) width and height, contained in `pg`. -/
def rect_valid_in (r pg : Rect) : Bool :=
  decide (r.x0 < r.x1) && decide (r.y0 < r.y1) &&
  decide (pg.x0 ≤ r.x0) && decide (r.x1 ≤ pg.x1) &&
  decide (pg.y0 ≤ r.y0) && decide (r.y1 ≤ pg.y1)

/-- A widget rectangle lies fully outside the projected page raster: on some
axis its whole extent is on one side of the projected page interval. -/
def fully_outside (pg : Rect) (scale : ℚ) (off : ℚ × ℚ) (rect : Rect) : Prop :=
  max rect.x0 rect.x1 ≤ pg.x0 * scale + off.1 ∨
  pg.x1 * scale + off.1 ≤ min rect.x0 rect.x1 ∨
  max rect.y0 rect.y1 ≤ pg.y0 * scale + off.2 ∨
  pg.y1 * scale + off.2 ≤ min rect.y0 rect.y1

instance (pg : Rect) (scale : ℚ) (off : ℚ × ℚ) (rect : Rect) :
    Decidable (fully_outside pg scale off rect) := by
  unfold fully_outside
  infer_instance

/-- Mutable state of `PdfViewerWidget`.  `pixmap` is the rendered raster size
when a page is rendered (`None` before any page is loaded); `rubber_band`
is the geometry of the shown rubber band, `none` when hidden. -/
structure ViewerState where
  pixmap : Option (ℚ × ℚ)
  page_rect : Option Rect
  scale_factor : ℚ
  pdf_selection : Option Rect
  dragging : Bool
  drag_start : ℤ × ℤ
  selection_widget_rect : Option Rect
  viewport_size : ℚ × ℚ
  widget_size : ℚ × ℚ
  rubber_band : Option Rect
deriving DecidableEq, Repr

/-- `PdfViewerWidget.__init__` state (a default `QSize()` is `(-1, -1)`). -/
def initViewer : ViewerState :=
  ⟨none, none, 1, none, false, (0, 0), none, (-1, -1), (0, 0), none⟩

/-- `PdfViewerWidget.image_offsets`: centering offsets of the raster inside
the widget, `0` on an axis where the widget is not larger than the raster. -/
def image_offsets (v : ViewerState) : ℚ × ℚ :=
  match v.pixmap with
  | none => (0, 0)
  | some pix =>
    (max ((v.widget_size.1 - pix.1) / 2) 0, max ((v.widget_size.2 - pix.2) / 2) 0)

/-- `PdfViewerWidget._update_widget_size`: resize the widget to the raster
size or the viewport size, whichever is larger per axis. -/
def update_widget_size (v : ViewerState) : ViewerState :=
  match v.pixmap with
  | none => v
  | some pix =>
    { v with widget_size := (max pix.1 v.viewport_size.1, max pix.2 v.viewport_size.2) }

/-- Size of the rendered raster (`_render_page_pixmap`): the external
renderer (`page.get_pixmap`) produces a raster of the scaled page size;
pixel rounding of the raster size is abstracted away (no claim depends on
the exact offsets). -/
def render_size (pg : Rect) (scale : ℚ) : ℚ × ℚ :=
  (pg.width * scale, pg.height * scale)

/-- `PdfViewerWidget._update_rubber_band_from_pdf`.  The guard
`if not (self.pixmap and self._pdf_selection)` is false when the pixmap is
absent, the selection is absent, or the selection is the (falsy) all-zero
rectangle.  `rect.width()`/`rect.height()` on a `QRectF` are `x1 - x0` and
`y1 - y0`. -/
def update_rubber_band_from_pdf (v : ViewerState) : ViewerState :=
  match v.pixmap, v.pdf_selection with
  | some _, some sel =>
    if sel = zeroRect then { v with rubber_band := none }
    else
      let rect := pdf_rect_to_widget v.scale_factor (image_offsets v) sel
      if rect.x1 - rect.x0 ≤ 0 ∨ rect.y1 - rect.y0 ≤ 0 then
        { v with rubber_band := none }
      else { v with selection_widget_rect := some rect, rubber_band := some rect }
  | _, _ => { v with rubber_band := none }

/-- `PdfViewerWidget.set_page`. -/
def set_page (pg : Rect) (scale : ℚ) (keep_selection : Bool) (v : ViewerState) :
    ViewerState :=
  let v1 := { v with page_rect := some pg, scale_factor := scale,
                     pixmap := some (render_size pg scale) }
  let v2 := update_widget_size v1
  let v3 := if keep_selection then v2 else { v2 with pdf_selection := none }
  update_rubber_band_from_pdf v3

/-- `PdfViewerWidget.set_viewport_size`. -/
def set_viewport_size (sz : ℚ × ℚ) (v : ViewerState) : ViewerState :=
  update_rubber_band_from_pdf (update_widget_size { v with viewport_size := sz })

/-- `PdfViewerWidget.clear_selection`: always clears the stored selection,
hides the rubber band and emits a `None` `selection_changed` signal. -/
def viewer_clear_selection (v : ViewerState) : ViewerState × List (Option Rect) :=
  ({ v with pdf_selection := none, selection_widget_rect := none,
            rubber_band := none }, [none])

/-- `QRectF(QRect(p, q).normalized())`: normalize the integer corners, then
convert to `QRectF`, which uses `QRect.width() = x2 - x1 + 1` (and the same
for the height), so the far corner gains `+1` per axis. -/
def qrectf_of_drag (p q : ℤ × ℤ) : Rect :=
  ⟨(min p.1 q.1 : ℤ), (min p.2 q.2 : ℤ),
   ((max p.1 q.1 + 1 : ℤ) : ℚ), ((max p.2 q.2 + 1 : ℤ) : ℚ)⟩

/-- `PdfViewerWidget.mousePressEvent`: only acts on a left-button press with
a pixmap present; records the drag anchor and shows an empty rubber band. -/
def mousePressEvent (left : Bool) (p : ℤ × ℤ) (v : ViewerState) : ViewerState :=
  if left && v.pixmap.isSome then
    { v with dragging := true, drag_start := p,
             rubber_band := some ⟨(p.1 : ℚ), (p.2 : ℚ), (p.1 : ℚ), (p.2 : ℚ)⟩ }
  else v

/-- `PdfViewerWidget.mouseMoveEvent`: while dragging with a pixmap present,
update the rubber band to span the anchor and the current point. -/
def mouseMoveEvent (p : ℤ × ℤ) (v : ViewerState) : ViewerState :=
  if v.dragging && v.pixmap.isSome then
    { v with rubber_band := some (qrectf_of_drag v.drag_start p) }
  else v

/-- `PdfViewerWidget.mouseReleaseEvent`: on a left-button release of an
active drag with a pixmap present, convert the drag rectangle to page space,
store it as the selection and emit it on `selection_changed`. -/
def mouseReleaseEvent (left : Bool) (p : ℤ × ℤ) (v : ViewerState) :
    ViewerState × List (Option Rect) :=
  if left && v.dragging && v.pixmap.isSome then
    let rect := qrectf_of_drag v.drag_start p
    let sel := widget_rect_to_pdf v.page_rect v.scale_factor (image_offsets v) rect
    let v1 := { v with dragging := false, selection_widget_rect := some rect,
                       pdf_selection := sel }
    (update_rubber_band_from_pdf v1, [sel])
  else (v, [])

/-- A loaded `fitz.Document`: its pages' rectangles. -/
structure Document where
  pages : List Rect
deriving DecidableEq, Repr

/-- `fitz.Document.page_count`. -/
def Document.page_count (d : Document) : ℕ := d.pages.length

/-- Truthiness of `self.doc` (`if not self.doc`): `fitz.Document` exposes
`__len__` as the page count, so `None` and a zero-page document are falsy. -/
def docTruthy : Option Document → Bool
  | none => false
  | some d => decide (d.pages ≠ [])

/-- State of `MainWindow` (the labels and buttons are pure display). -/
structure MainState where
  doc : Option Document
  current_page_index : ℕ
  scale_factor : ℚ
  viewer : ViewerState
deriving DecidableEq, Repr

/-- `MainWindow.__init__` state. -/
def initState : MainState := ⟨none, 0, 1, initViewer⟩

/-- Observable side effects of one handler run: the `selection_changed`
emissions in order, any text placed on the clipboard, and whether a critical
error dialog was shown. -/
structure Effects where
  sel_events : List (Option Rect)
  clipboard : Option String
  error_shown : Bool
deriving DecidableEq, Repr

def noEffects : Effects := ⟨[], none, false⟩

/-- `MainWindow.load_page`.  (In Python, `self.doc.load_page` would raise on
an out-of-range index; with a truthy document the index is always in range in
reachable states, and the lookup is totalized with a default.) -/
def load_page (keep_selection : Bool) (st : MainState) :
    MainState × List (Option Rect) :=
  match st.doc with
  | none => (st, [])
  | some d =>
    if d.pages = [] then (st, [])
    else
      let pg := d.pages.getD st.current_page_index zeroRect
      let st1 := { st with
        viewer := set_page pg st.scale_factor keep_selection st.viewer }
      if keep_selection then (st1, [])
      else
        let res := viewer_clear_selection st1.viewer
        ({ st1 with viewer := res.1 }, res.2)

/-- `MainWindow.next_page`: advances only when a truthy document is loaded
and the current page is not the last. -/
def next_page (st : MainState) : MainState × List (Option Rect) :=
  match st.doc with
  | some d =>
    if d.pages ≠ [] ∧ (st.current_page_index : ℤ) < (d.page_count : ℤ) - 1 then
      load_page false { st with current_page_index := st.current_page_index + 1 }
    else (st, [])
  | none => (st, [])

/-- `MainWindow.prev_page`: goes back only when a truthy document is loaded
and the current page is not the first. -/
def prev_page (st : MainState) : MainState × List (Option Rect) :=
  match st.doc with
  | some d =>
    if d.pages ≠ [] ∧ 0 < st.current_page_index then
      load_page false { st with current_page_index := st.current_page_index - 1 }
    else (st, [])
  | none => (st, [])

/-- `MainWindow.zoom_in`: multiply the scale by `1.25`, clamped to at most
`6.0`, then re-render keeping the selection. -/
def zoom_in (st : MainState) : MainState × List (Option Rect) :=
  if docTruthy st.doc = false then (st, [])
  else load_page true { st with scale_factor := min (st.scale_factor * 1.25) 6 }

/-- `MainWindow.zoom_out`: divide the scale by `1.25`, clamped to at least
`0.2`, then re-render keeping the selection. -/
def zoom_out (st : MainState) : MainState × List (Option Rect) :=
  if docTruthy st.doc = false then (st, [])
  else load_page true { st with scale_factor := max (st.scale_factor / 1.25) 0.2 }

/-- `MainWindow.reset_zoom`: back to scale `1.0`, keeping the selection. -/
def reset_zoom (st : MainState) : MainState × List (Option Rect) :=
  if docTruthy st.doc = false then (st, [])
  else load_page true { st with scale_factor := 1 }

/-- `MainWindow.clear_selection` just delegates to the viewer. -/
def clear_selection (st : MainState) : MainState × List (Option Rect) :=
  let res := viewer_clear_selection st.viewer
  ({ st with viewer := res.1 }, res.2)

/-- Banker's rounding of the fraction `n / d` (with `0 ≤ n`, `0 < d`) to an
integer: Python float formatting rounds half to even. -/
def roundHalfEven (n : ℤ) (d : ℕ) : ℤ :=
  let t := n / d
  let r := n % d
  if 2 * r < (d : ℤ) then t
  else if (d : ℤ) < 2 * r then t + 1
  else if t % 2 = 0 then t else t + 1

/-- Python `f"{x:.2f}"` on an exact rational: the sign, then the absolute
value `|q.num| / q.den` rounded to two decimal places (half to even). -/
def fmt2 (q : ℚ) : String :=
  let sign := if q.num < 0 then "-" else ""
  let n := (roundHalfEven (|q.num| * 100) q.den).toNat
  let ip := toString (n / 100)
  let fp := n % 100
  let fps := (if fp < 10 then "0" else "") ++ toString fp
  sign ++ ip ++ "." ++ fps

/-- The clipboard text built by `MainWindow.copy_rect`. -/
def rect_text (r : Rect) : String :=
  "fitz.Rect(" ++ fmt2 r.x0 ++ ", " ++ fmt2 r.y0 ++ ", " ++
    fmt2 r.x1 ++ ", " ++ fmt2 r.y1 ++ ")"

/-- `MainWindow.copy_rect`: `if not rect: return` — a `None` selection and
the (falsy) all-zero rectangle are no-ops; otherwise put the formatted text
on the clipboard. -/
def copy_rect (st : MainState) : MainState × Effects :=
  match st.viewer.pdf_selection with
  | none => (st, noEffects)
  | some r =>
    if r = zeroRect then (st, noEffects)
    else (st, ⟨[], some (rect_text r), false⟩)

/-- Outcome of the file dialog plus `fitz.open` in `MainWindow.open_pdf`:
the dialog was cancelled, the open raised, or a document was opened. -/
inductive OpenResult where
  | cancelled
  | failed
  | opened (d : Document)
deriving DecidableEq, Repr

/-- `MainWindow.open_pdf`: a cancelled dialog is a silent no-op; a failed
open shows an error dialog and changes nothing; a successful open installs
the document, resets page index and scale, and loads the first page. -/
def open_pdf (res : OpenResult) (st : MainState) : MainState × Effects :=
  match res with
  | .cancelled => (st, noEffects)
  | .failed => (st, ⟨[], none, true⟩)
  | .opened d =>
    let st1 : MainState :=
      { st with doc := some d, current_page_index := 0, scale_factor := 1 }
    let res2 := load_page false st1
    (res2.1, ⟨res2.2, none, false⟩)

/-- The program's input events (button handlers, shortcuts, mouse events on
the viewer, viewport resizes). -/
inductive Op where
  | press (left : Bool) (p : ℤ × ℤ)
  | move (p : ℤ × ℤ)
  | release (left : Bool) (p : ℤ × ℤ)
  | zoomIn
  | zoomOut
  | resetZoom
  | nextPage
  | prevPage
  | clearSel
  | copyRect
  | openDoc (res : OpenResult)
  | viewportResized (sz : ℚ × ℚ)
deriving DecidableEq, Repr

/-- One event-loop step of the program. -/
def step : Op → MainState → MainState × Effects
  | .press left p, st =>
    ({ st with viewer := mousePressEvent left p st.viewer }, noEffects)
  | .move p, st =>
    ({ st with viewer := mouseMoveEvent p st.viewer }, noEffects)
  | .release left p, st =>
    let res := mouseReleaseEvent left p st.viewer
    ({ st with viewer := res.1 }, ⟨res.2, none, false⟩)
  | .zoomIn, st => let r := zoom_in st; (r.1, ⟨r.2, none, false⟩)
  | .zoomOut, st => let r := zoom_out st; (r.1, ⟨r.2, none, false⟩)
  | .resetZoom, st => let r := reset_zoom st; (r.1, ⟨r.2, none, false⟩)
  | .nextPage, st => let r := next_page st; (r.1, ⟨r.2, none, false⟩)
  | .prevPage, st => let r := prev_page st; (r.1, ⟨r.2, none, false⟩)
  | .clearSel, st => let r := clear_selection st; (r.1, ⟨r.2, none, false⟩)
  | .copyRect, st => copy_rect st
  | .openDoc res, st => open_pdf res st
  | .viewportResized sz, st =>
    ({ st with viewer := set_viewport_size sz st.viewer }, noEffects)

/-- Run a sequence of events from a state, ignoring effects. -/
def run (l : List Op) (st : MainState) : MainState :=
  l.foldl (fun s op => (step op s).1) st

/-- The selection invariant at the viewer: the stored selection is absent, or
a page rectangle is set and the selection is normalized with positive width
and height and contained in the page bounds. -/
def selection_ok (v : ViewerState) : Bool :=
  match v.pdf_selection, v.page_rect with
  | none, _ => true
  | some _, none => false
  | some r, some pg => rect_valid_in r pg

/-- Coherence of the window with its viewer: with a loaded non-empty
document, the viewer shows exactly the current page's rectangle. -/
def coherent (st : MainState) : Bool :=
  match st.doc with
  | none => true
  | some d =>
    decide (d.pages = []) ||
    decide (st.viewer.page_rect = some (d.pages.getD st.current_page_index zeroRect))

/-- Full state invariant (claim C2's invariant plus the coherence making it
inductive). -/
def StateInv (st : MainState) : Bool := selection_ok st.viewer && coherent st

/-- A zoom operation (the three zoom buttons / shortcuts). -/
inductive ZoomOp where
  | zin
  | zout
  | reset
deriving DecidableEq, Repr

def zoomOpToOp : ZoomOp → Op
  | .zin => Op.zoomIn
  | .zout => Op.zoomOut
  | .reset => Op.resetZoom

/-- Run a sequence of zoom operations. -/
def apply_zooms (l : List ZoomOp) (st : MainState) : MainState :=
  run (l.map zoomOpToOp) st

/-- A one-page 100 by 100 document, for concrete instances. -/
def sampleDoc : Document := ⟨[⟨0, 0, 100, 100⟩]⟩

/-- A three-page document, for concrete instances. -/
def sampleDoc3 : Document := ⟨[⟨0, 0, 100, 100⟩, ⟨0, 0, 100, 100⟩, ⟨0, 0, 100, 100⟩]⟩

/-- A viewer showing a 100 by 100 page at scale 1 with a committed
selection `(10, 10, 50, 50)`. -/
def sampleViewer : ViewerState :=
  ⟨some (100, 100), some ⟨0, 0, 100, 100⟩, 1, some ⟨10, 10, 50, 50⟩, false,
   (0, 0), none, (-1, -1), (100, 100), none⟩

/-- The window state for `sampleViewer` on the one-page document. -/
def sampleState : MainState := ⟨some sampleDoc, 0, 1, sampleViewer⟩

/-- The window state for `sampleViewer` on page 1 (of 3). -/
def midState : MainState := ⟨some sampleDoc3, 1, 1, sampleViewer⟩

/-- A concrete event sequence: open, drag from (10,10) to (50,70), zoom. -/
def sampleOps : List Op :=
  [Op.openDoc (OpenResult.opened sampleDoc), Op.press true (10, 10),
   Op.release true (50, 70), Op.zoomIn]

theorem rect_valid_in_iff (r pg : Rect) :
    rect_valid_in r pg = true ↔
      r.x0 < r.x1 ∧ r.y0 < r.y1 ∧ pg.x0 ≤ r.x0 ∧ r.x1 ≤ pg.x1 ∧
      pg.y0 ≤ r.y0 ∧ r.y1 ≤ pg.y1 := by
  simp [rect_valid_in, and_assoc]

theorem widget_rect_to_pdf_valid (page_rect : Option Rect) (scale : ℚ)
    (off : ℚ × ℚ) (rect r : Rect)
    (h : widget_rect_to_pdf page_rect scale off rect = some r) :
    ∃ pg, page_rect = some pg ∧ rect_valid_in r pg = true := by
  unfold widget_rect_to_pdf at h
  split at h
  · exact absurd h (by simp)
  · cases page_rect with
    | none => exact absurd h (by simp)
    | some pg =>
      refine ⟨pg, rfl, ?_⟩
      simp only at h
      split at h
      · exact absurd h (by simp)
      · rename_i hdeg
        rw [not_or] at hdeg
        obtain ⟨hw, hh⟩ := hdeg
        have hr : r = norm_clamped pg scale off rect := by
          simpa using h.symm
        subst hr
        rw [Rect.width] at hw
        rw [Rect.height] at hh
        rw [max_eq_left_iff, not_le] at hw hh
        rw [sub_pos] at hw hh
        rw [rect_valid_in_iff]
        refine ⟨hw, hh, le_max_left _ _, min_le_left _ _,
               le_max_left _ _, min_le_left _ _⟩

/-- C1: round trip.  For a positive scale, any offset, and a normalized,
positive-area page rectangle inside the page bounds, projecting to screen
space and back returns the same rectangle (exact rational arithmetic). -/
theorem round_trip (scale : ℚ) (hs : 0 < scale) (off : ℚ × ℚ) (pg r : Rect)
    (hnx : r.x0 ≤ r.x1) (hny : r.y0 ≤ r.y1)
    (hwpos : 0 < r.x1 - r.x0) (hhpos : 0 < r.y1 - r.y0)
    (hx0 : pg.x0 ≤ r.x0) (hx1 : r.x1 ≤ pg.x1)
    (hy0 : pg.y0 ≤ r.y0) (hy1 : r.y1 ≤ pg.y1) :
    widget_rect_to_pdf (some pg) scale off (pdf_rect_to_widget scale off r) =
      some r := by
  have hsne : scale ≠ 0 := ne_of_gt hs
  have hpgx : pg.x0 < pg.x1 := lt_of_le_of_lt hx0 (lt_of_lt_of_le (by linarith) hx1)
  have hpgtruthy : rectTruthy (some pg) = true := by
    simp only [rectTruthy, decide_eq_true_eq]
    intro hz
    rw [hz] at hpgx
    simp [zeroRect] at hpgx
  -- the projected corners are in the same order, so `qnormalized` is the identity
  have hx01 : r.x0 * scale + off.1 ≤ r.x1 * scale + off.1 := by nlinarith
  have hy01 : r.y0 * scale + off.2 ≤ r.y1 * scale + off.2 := by nlinarith
  unfold pdf_rect_to_widget qnormalized
  simp only [min_eq_left hx01, max_eq_right hx01, min_eq_left hy01, max_eq_right hy01]
  unfold widget_rect_to_pdf
  rw [hpgtruthy]
  simp only [Bool.true_eq_false, if_false]
  have hcl : norm_clamped pg scale off
      ⟨r.x0 * scale + off.1, r.y0 * scale + off.2,
       r.x1 * scale + off.1, r.y1 * scale + off.2⟩ = r := by
    unfold norm_clamped
    have e0 : (r.x0 * scale + off.1 - off.1) / scale = r.x0 := by
      field_simp
    have e0y : (r.y0 * scale + off.2 - off.2) / scale = r.y0 := by
      field_simp
    have e1 : (r.x1 * scale + off.1 - (r.x0 * scale + off.1)) / scale = r.x1 - r.x0 := by
      field_simp
      ring
    have e1y : (r.y1 * scale + off.2 - (r.y0 * scale + off.2)) / scale = r.y1 - r.y0 := by
      field_simp
      ring
    simp only [e0, e0y, e1, e1y]
    have hx : r.x0 + (r.x1 - r.x0) = r.x1 := by ring
    have hy : r.y0 + (r.y1 - r.y0) = r.y1 := by ring
    rw [hx, hy]
    simp only [min_eq_left hnx, max_eq_right hnx, min_eq_left hny, max_eq_right hny]
    cases r
    simp only [Rect.mk.injEq]
    exact ⟨max_eq_right hx0, max_eq_right hy0, min_eq_right hx1, min_eq_right hy1⟩
  simp only [hcl]
  have hwne : Rect.width r ≠ 0 := by
    rw [Rect.width]
    exact (lt_max_iff.mpr (Or.inr hwpos)).ne'
  have hhne : Rect.height r ≠ 0 := by
    rw [Rect.height]
    exact (lt_max_iff.mpr (Or.inr hhpos)).ne'
  simp [hwne, hhne]

/-- Witness for the round-trip theorem at a concrete instance. -/
theorem round_trip_witness :
    widget_rect_to_pdf (some ⟨0, 0, 200, 200⟩) 2 (5, 7)
      (pdf_rect_to_widget 2 (5, 7) ⟨10, 10, 50, 50⟩) = some ⟨10, 10, 50, 50⟩ :=
  round_trip 2 (by norm_num) (5, 7) ⟨0, 0, 200, 200⟩ ⟨10, 10, 50, 50⟩
    (by norm_num) (by norm_num) (by norm_num) (by norm_num)
    (by norm_num) (by norm_num) (by norm_num) (by norm_num)

theorem zeroRect_clamp_degenerate (scale : ℚ) (off : ℚ × ℚ) (rect : Rect) :
    (norm_clamped zeroRect scale off rect).width = 0 := by
  unfold norm_clamped zeroRect Rect.width
  simp only
  rw [max_eq_left_iff, sub_nonpos]
  exact le_trans (min_le_left _ _) (le_max_left _ _)

theorem fully_outside_clamp_degenerate (pg : Rect) (scale : ℚ) (off : ℚ × ℚ)
    (rect : Rect) (hs : 0 < scale) (h : fully_outside pg scale off rect) :
    (norm_clamped pg scale off rect).width = 0 ∨
    (norm_clamped pg scale off rect).height = 0 := by
  unfold norm_clamped
  simp only
  -- the normalized candidate corners, expressed through min/max of the inputs
  have hminx : min ((rect.x0 - off.1) / scale)
      ((rect.x0 - off.1) / scale + (rect.x1 - rect.x0) / scale) =
      (min rect.x0 rect.x1 - off.1) / scale := by
    rw [div_add_div_same]
    have he : rect.x0 - off.1 + (rect.x1 - rect.x0) = rect.x1 - off.1 := by ring
    rw [he, min_div_div_right (le_of_lt hs), min_sub_sub_right]
  have hmaxx : max ((rect.x0 - off.1) / scale)
      ((rect.x0 - off.1) / scale + (rect.x1 - rect.x0) / scale) =
      (max rect.x0 rect.x1 - off.1) / scale := by
    rw [div_add_div_same]
    have he : rect.x0 - off.1 + (rect.x1 - rect.x0) = rect.x1 - off.1 := by ring
    rw [he, max_div_div_right (le_of_lt hs), max_sub_sub_right]
  have hminy : min ((rect.y0 - off.2) / scale)
      ((rect.y0 - off.2) / scale + (rect.y1 - rect.y0) / scale) =
      (min rect.y0 rect.y1 - off.2) / scale := by
    rw [div_add_div_same]
    have he : rect.y0 - off.2 + (rect.y1 - rect.y0) = rect.y1 - off.2 := by ring
    rw [he, min_div_div_right (le_of_lt hs), min_sub_sub_right]
  have hmaxy : max ((rect.y0 - off.2) / scale)
      ((rect.y0 - off.2) / scale + (rect.y1 - rect.y0) / scale) =
      (max rect.y0 rect.y1 - off.2) / scale := by
    rw [div_add_div_same]
    have he : rect.y0 - off.2 + (rect.y1 - rect.y0) = rect.y1 - off.2 := by ring
    rw [he, max_div_div_right (le_of_lt hs), max_sub_sub_right]
  rw [hminx, hmaxx, hminy, hmaxy]
  rcases h with h | h | h | h
  · left
    rw [Rect.width, max_eq_left_iff, sub_nonpos]
    calc min pg.x1 ((max rect.x0 rect.x1 - off.1) / scale)
        ≤ (max rect.x0 rect.x1 - off.1) / scale := min_le_right _ _
      _ ≤ pg.x0 := by
          rw [div_le_iff₀ hs]
          linarith
      _ ≤ max pg.x0 ((min rect.x0 rect.x1 - off.1) / scale) := le_max_left _ _
  · left
    rw [Rect.width, max_eq_left_iff, sub_nonpos]
    calc min pg.x1 ((max rect.x0 rect.x1 - off.1) / scale)
        ≤ pg.x1 := min_le_left _ _
      _ ≤ (min rect.x0 rect.x1 - off.1) / scale := by
          rw [le_div_iff₀ hs]
          linarith
      _ ≤ max pg.x0 ((min rect.x0 rect.x1 - off.1) / scale) := le_max_right _ _
  · right
    rw [Rect.height, max_eq_left_iff, sub_nonpos]
    calc min pg.y1 ((max rect.y0 rect.y1 - off.2) / scale)
        ≤ (max rect.y0 rect.y1 - off.2) / scale := min_le_right _ _
      _ ≤ pg.y0 := by
          rw [div_le_iff₀ hs]
          linarith
      _ ≤ max pg.y0 ((min rect.y0 rect.y1 - off.2) / scale) := le_max_left _ _
  · right
    rw [Rect.height, max_eq_left_iff, sub_nonpos]
    calc min pg.y1 ((max rect.y0 rect.y1 - off.2) / scale)
        ≤ pg.y1 := min_le_left _ _
      _ ≤ (min rect.y0 rect.y1 - off.2) / scale := by
          rw [le_div_iff₀ hs]
          linarith
      _ ≤ max pg.y0 ((min rect.y0 rect.y1 - off.2) / scale) := le_max_right _ _

/-- C3: `_widget_rect_to_pdf` (with a page rectangle set) returns `None`
exactly when the normalized, clamped candidate has width or height exactly
`0`; in particular it returns `None` for every widget rectangle fully outside
the projected page raster (positive scale). -/
theorem screen_to_page_none_iff (pg : Rect) (scale : ℚ) (off : ℚ × ℚ)
    (rect : Rect) :
    (widget_rect_to_pdf (some pg) scale off rect = none ↔
      (norm_clamped pg scale off rect).width = 0 ∨
      (norm_clamped pg scale off rect).height = 0) ∧
    (0 < scale → fully_outside pg scale off rect →
      widget_rect_to_pdf (some pg) scale off rect = none) := by
  have hiff : widget_rect_to_pdf (some pg) scale off rect = none ↔
      (norm_clamped pg scale off rect).width = 0 ∨
      (norm_clamped pg scale off rect).height = 0 := by
    unfold widget_rect_to_pdf
    by_cases hpg : rectTruthy (some pg) = false
    · rw [if_pos hpg]
      have hz : pg = zeroRect := by
        simp only [rectTruthy, decide_eq_false_iff_not, not_not] at hpg
        exact hpg
      subst hz
      exact ⟨fun _ => Or.inl (zeroRect_clamp_degenerate scale off rect),
             fun _ => rfl⟩
    · rw [if_neg hpg]
      show (if (norm_clamped pg scale off rect).width = 0 ∨
              (norm_clamped pg scale off rect).height = 0 then none
            else some (norm_clamped pg scale off rect)) = none ↔ _
      by_cases hdeg : (norm_clamped pg scale off rect).width = 0 ∨
          (norm_clamped pg scale off rect).height = 0
      · rw [if_pos hdeg]
        exact ⟨fun _ => hdeg, fun _ => rfl⟩
      · rw [if_neg hdeg]
        exact ⟨fun h => (Option.some_ne_none _ h).elim, fun h => absurd h hdeg⟩
  exact ⟨hiff, fun hs hout =>
    hiff.mpr (fully_outside_clamp_degenerate pg scale off rect hs hout)⟩

/-- Witness for C3 at a concrete instance: a screen rectangle entirely to the
right of the projected page maps to `None`. -/
theorem screen_to_page_none_witness :
    widget_rect_to_pdf (some ⟨0, 0, 100, 100⟩) 1 (0, 0) ⟨200, 10, 300, 50⟩ =
      none :=
  (screen_to_page_none_iff ⟨0, 0, 100, 100⟩ 1 (0, 0) ⟨200, 10, 300, 50⟩).2
    (by norm_num) (by unfold fully_outside; norm_num)

theorem selection_ok_congr {v v' : ViewerState}
    (h1 : v'.pdf_selection = v.pdf_selection)
    (h2 : v'.page_rect = v.page_rect) :
    selection_ok v' = selection_ok v := by
  unfold selection_ok
  rw [h1, h2]

theorem coherent_congr {st st' : MainState} (h1 : st'.doc = st.doc)
    (h2 : st'.current_page_index = st.current_page_index)
    (h3 : st'.viewer.page_rect = st.viewer.page_rect) :
    coherent st' = coherent st := by
  unfold coherent
  rw [h1, h2, h3]

theorem update_widget_size_proj (v : ViewerState) :
    (update_widget_size v).pdf_selection = v.pdf_selection ∧
    (update_widget_size v).page_rect = v.page_rect ∧
    (update_widget_size v).pixmap = v.pixmap ∧
    (update_widget_size v).scale_factor = v.scale_factor ∧
    (update_widget_size v).dragging = v.dragging := by
  cases hp : v.pixmap <;> simp [update_widget_size, hp]

theorem update_rubber_band_proj (v : ViewerState) :
    (update_rubber_band_from_pdf v).pdf_selection = v.pdf_selection ∧
    (update_rubber_band_from_pdf v).page_rect = v.page_rect ∧
    (update_rubber_band_from_pdf v).pixmap = v.pixmap ∧
    (update_rubber_band_from_pdf v).scale_factor = v.scale_factor ∧
    (update_rubber_band_from_pdf v).dragging = v.dragging := by
  cases hp : v.pixmap with
  | none => cases hs : v.pdf_selection <;> simp [update_rubber_band_from_pdf, hp, hs]
  | some pix =>
    cases hs : v.pdf_selection with
    | none => simp [update_rubber_band_from_pdf, hp, hs]
    | some sel =>
      simp only [update_rubber_band_from_pdf, hp, hs]
      split
      · exact ⟨rfl, rfl, rfl, rfl, rfl⟩
      · split
        · exact ⟨rfl, rfl, rfl, rfl, rfl⟩
        · exact ⟨rfl, rfl, rfl, rfl, rfl⟩

theorem set_page_proj (pg : Rect) (scale : ℚ) (keep : Bool) (v : ViewerState) :
    (set_page pg scale keep v).page_rect = some pg ∧
    (set_page pg scale keep v).pdf_selection =
      (if keep then v.pdf_selection else none) := by
  unfold set_page
  cases keep with
  | false =>
    simp only [Bool.false_eq_true, if_false]
    constructor
    · rw [(update_rubber_band_proj _).2.1]
      show (update_widget_size _).page_rect = _
      rw [(update_widget_size_proj _).2.1]
    · rw [(update_rubber_band_proj _).1]
  | true =>
    simp only [if_true]
    constructor
    · rw [(update_rubber_band_proj _).2.1, (update_widget_size_proj _).2.1]
    · rw [(update_rubber_band_proj _).1, (update_widget_size_proj _).1]

theorem mousePressEvent_proj (left : Bool) (p : ℤ × ℤ) (v : ViewerState) :
    (mousePressEvent left p v).pdf_selection = v.pdf_selection ∧
    (mousePressEvent left p v).page_rect = v.page_rect := by
  unfold mousePressEvent
  split
  · exact ⟨rfl, rfl⟩
  · exact ⟨rfl, rfl⟩

theorem mouseMoveEvent_proj (p : ℤ × ℤ) (v : ViewerState) :
    (mouseMoveEvent p v).pdf_selection = v.pdf_selection ∧
    (mouseMoveEvent p v).page_rect = v.page_rect := by
  unfold mouseMoveEvent
  split
  · exact ⟨rfl, rfl⟩
  · exact ⟨rfl, rfl⟩

theorem set_viewport_size_proj (sz : ℚ × ℚ) (v : ViewerState) :
    (set_viewport_size sz v).pdf_selection = v.pdf_selection ∧
    (set_viewport_size sz v).page_rect = v.page_rect := by
  unfold set_viewport_size
  constructor
  · rw [(update_rubber_band_proj _).1, (update_widget_size_proj _).1]
  · rw [(update_rubber_band_proj _).2.1, (update_widget_size_proj _).2.1]

theorem selection_ok_of_none (v : ViewerState) (h : v.pdf_selection = none) :
    selection_ok v = true := by
  unfold selection_ok
  rw [h]

theorem selection_ok_of_fields (v' : ViewerState) (sel : Option Rect) (pr : Rect)
    (hsel : v'.pdf_selection = sel) (hpage : v'.page_rect = some pr)
    (hok : ∀ r, sel = some r → rect_valid_in r pr = true) :
    selection_ok v' = true := by
  unfold selection_ok
  cases hs : sel with
  | none =>
    rw [hs] at hsel
    rw [hsel]
  | some r =>
    rw [hs] at hsel
    rw [hsel, hpage]
    exact hok r hs

theorem selection_ok_elim (v : ViewerState) (pgr : Rect)
    (hok : selection_ok v = true) (hpage : v.page_rect = some pgr) :
    ∀ r, v.pdf_selection = some r → rect_valid_in r pgr = true := by
  intro r hr
  unfold selection_ok at hok
  rw [hr, hpage] at hok
  exact hok

theorem selection_ok_of_wrtp (v' : ViewerState) (pr : Option Rect) (s : ℚ)
    (off : ℚ × ℚ) (rect : Rect) (hpage : v'.page_rect = pr)
    (hsel : v'.pdf_selection = widget_rect_to_pdf pr s off rect) :
    selection_ok v' = true := by
  unfold selection_ok
  cases hw : widget_rect_to_pdf pr s off rect with
  | none =>
    rw [hw] at hsel
    rw [hsel]
  | some r =>
    rw [hw] at hsel
    obtain ⟨pg, hpg, hval⟩ := widget_rect_to_pdf_valid pr s off rect r hw
    rw [hsel, hpage, hpg]
    exact hval

theorem mouseReleaseEvent_ok (left : Bool) (p : ℤ × ℤ) (v : ViewerState) :
    (mouseReleaseEvent left p v).1.page_rect = v.page_rect ∧
    (selection_ok v = true → selection_ok (mouseReleaseEvent left p v).1 = true) := by
  unfold mouseReleaseEvent
  split
  · dsimp only
    constructor
    · rw [(update_rubber_band_proj _).2.1]
    · intro hv
      apply selection_ok_of_wrtp _ v.page_rect v.scale_factor (image_offsets v)
        (qrectf_of_drag v.drag_start p)
      · rw [(update_rubber_band_proj _).2.1]
      · rw [(update_rubber_band_proj _).1]
  · exact ⟨rfl, fun h => h⟩

theorem coherent_of_none (st : MainState) (hd : st.doc = none) :
    coherent st = true := by
  unfold coherent
  rw [hd]

theorem coherent_of_empty (st : MainState) (d : Document) (hd : st.doc = some d)
    (he : d.pages = []) : coherent st = true := by
  unfold coherent
  rw [hd]
  simp [he]

theorem coherent_intro (st : MainState) (d : Document) (hd : st.doc = some d)
    (hpage : st.viewer.page_rect =
      some (d.pages.getD st.current_page_index zeroRect)) :
    coherent st = true := by
  unfold coherent
  rw [hd]
  simp [hpage]

theorem coherent_elim (st : MainState) (d : Document) (hd : st.doc = some d)
    (hne : d.pages ≠ []) (hco : coherent st = true) :
    st.viewer.page_rect = some (d.pages.getD st.current_page_index zeroRect) := by
  unfold coherent at hco
  rw [hd] at hco
  simp only [Bool.or_eq_true, decide_eq_true_eq] at hco
  rcases hco with hco | hco
  · exact absurd hco hne
  · exact hco

theorem docTruthy_not_false (o : Option Document)
    (h : ¬ docTruthy o = false) : ∃ d, o = some d ∧ d.pages ≠ [] := by
  cases o with
  | none => simp [docTruthy] at h
  | some d =>
    refine ⟨d, rfl, ?_⟩
    simp only [docTruthy, Bool.not_eq_false, decide_eq_true_eq] at h
    exact h

theorem load_page_char (keep : Bool) (st : MainState) :
    (docTruthy st.doc = false → load_page keep st = (st, [])) ∧
    (∀ d, st.doc = some d → d.pages ≠ [] →
      ((load_page keep st).1.doc = st.doc ∧
       (load_page keep st).1.current_page_index = st.current_page_index ∧
       (load_page keep st).1.scale_factor = st.scale_factor ∧
       (load_page keep st).1.viewer.page_rect =
         some (d.pages.getD st.current_page_index zeroRect) ∧
       (load_page keep st).1.viewer.pdf_selection =
         (if keep then st.viewer.pdf_selection else none) ∧
       (load_page keep st).2 = (if keep then [] else [none]))) := by
  constructor
  · intro hf
    unfold load_page
    cases hd : st.doc with
    | none => rfl
    | some d =>
      rw [hd] at hf
      simp only [docTruthy, decide_eq_false_iff_not, not_not] at hf
      simp [hf]
  · intro d hd hne
    unfold load_page
    rw [hd]
    dsimp only
    rw [if_neg hne]
    cases keep with
    | true =>
      exact ⟨rfl, rfl, rfl, (set_page_proj _ _ _ _).1,
             (set_page_proj _ _ _ _).2, rfl⟩
    | false =>
      dsimp only [viewer_clear_selection]
      refine ⟨rfl, rfl, rfl, ?_, rfl, rfl⟩
      show (set_page _ _ _ _).page_rect = _
      exact (set_page_proj _ _ _ _).1

theorem stateInv_elim {st : MainState} (h : StateInv st = true) :
    selection_ok st.viewer = true ∧ coherent st = true := by
  simp only [StateInv, Bool.and_eq_true] at h
  exact h

theorem stateInv_intro {st : MainState} (h1 : selection_ok st.viewer = true)
    (h2 : coherent st = true) : StateInv st = true := by
  simp only [StateInv, Bool.and_eq_true]
  exact ⟨h1, h2⟩

theorem stateInv_congr {st st' : MainState} (hdoc : st'.doc = st.doc)
    (hidx : st'.current_page_index = st.current_page_index)
    (hsel : st'.viewer.pdf_selection = st.viewer.pdf_selection)
    (hpage : st'.viewer.page_rect = st.viewer.page_rect) :
    StateInv st' = StateInv st := by
  unfold StateInv
  rw [selection_ok_congr hsel hpage, coherent_congr hdoc hidx hpage]

theorem stateInv_viewer_update {st : MainState} {v' : ViewerState}
    (hsel : v'.pdf_selection = st.viewer.pdf_selection)
    (hpage : v'.page_rect = st.viewer.page_rect)
    (h : StateInv st = true) :
    StateInv { st with viewer := v' } = true := by
  apply stateInv_intro
  · exact (selection_ok_congr hsel hpage).trans (stateInv_elim h).1
  · exact (@coherent_congr st { st with viewer := v' } rfl rfl hpage).trans
      (stateInv_elim h).2

theorem stateInv_scale_update {st : MainState} (s : ℚ) (h : StateInv st = true) :
    StateInv { st with scale_factor := s } = true := by
  apply stateInv_intro
  · exact (stateInv_elim h).1
  · exact (@coherent_congr st { st with scale_factor := s } rfl rfl rfl).trans
      (stateInv_elim h).2

theorem stateInv_load_keep (st : MainState) (h : StateInv st = true) :
    StateInv (load_page true st).1 = true := by
  by_cases hdt : docTruthy st.doc = false
  · have he := (load_page_char true st).1 hdt
    rw [he]
    exact h
  · obtain ⟨d, hd, hne⟩ := docTruthy_not_false st.doc hdt
    obtain ⟨h1, h2, h3, h4, h5, h6⟩ := (load_page_char true st).2 d hd hne
    have hpage : st.viewer.page_rect =
        some (d.pages.getD st.current_page_index zeroRect) :=
      coherent_elim st d hd hne (stateInv_elim h).2
    apply stateInv_intro
    · apply selection_ok_of_fields _ st.viewer.pdf_selection
        (d.pages.getD st.current_page_index zeroRect)
      · exact h5
      · exact h4
      · exact selection_ok_elim st.viewer _ (stateInv_elim h).1 hpage
    · apply coherent_intro _ d (h1.trans hd)
      rw [h2]
      exact h4

theorem stateInv_load_false_truthy (st : MainState) (d : Document)
    (hd : st.doc = some d) (hne : d.pages ≠ []) :
    StateInv (load_page false st).1 = true := by
  obtain ⟨h1, h2, h3, h4, h5, h6⟩ := (load_page_char false st).2 d hd hne
  apply stateInv_intro
  · exact selection_ok_of_none _ h5
  · apply coherent_intro _ d (h1.trans hd)
    rw [h2]
    exact h4

theorem stateInv_step (st : MainState) (op : Op) (h : StateInv st = true) :
    StateInv (step op st).1 = true := by
  cases op with
  | press left p =>
    show StateInv { st with viewer := mousePressEvent left p st.viewer } = true
    exact stateInv_viewer_update (mousePressEvent_proj left p st.viewer).1
      (mousePressEvent_proj left p st.viewer).2 h
  | move p =>
    show StateInv { st with viewer := mouseMoveEvent p st.viewer } = true
    exact stateInv_viewer_update (mouseMoveEvent_proj p st.viewer).1
      (mouseMoveEvent_proj p st.viewer).2 h
  | release left p =>
    show StateInv { st with viewer := (mouseReleaseEvent left p st.viewer).1 } = true
    apply stateInv_intro
    · exact (mouseReleaseEvent_ok left p st.viewer).2 (stateInv_elim h).1
    · exact (@coherent_congr st
        { st with viewer := (mouseReleaseEvent left p st.viewer).1 } rfl rfl
        (mouseReleaseEvent_ok left p st.viewer).1).trans (stateInv_elim h).2
  | zoomIn =>
    show StateInv (zoom_in st).1 = true
    unfold zoom_in
    split
    · exact h
    · exact stateInv_load_keep _ (stateInv_scale_update _ h)
  | zoomOut =>
    show StateInv (zoom_out st).1 = true
    unfold zoom_out
    split
    · exact h
    · exact stateInv_load_keep _ (stateInv_scale_update _ h)
  | resetZoom =>
    show StateInv (reset_zoom st).1 = true
    unfold reset_zoom
    split
    · exact h
    · exact stateInv_load_keep _ (stateInv_scale_update _ h)
  | nextPage =>
    show StateInv (next_page st).1 = true
    unfold next_page
    cases hd : st.doc with
    | none => exact h
    | some d =>
      dsimp only
      split
      · rename_i hcond
        exact stateInv_load_false_truthy _ d rfl hcond.1
      · exact h
  | prevPage =>
    show StateInv (prev_page st).1 = true
    unfold prev_page
    cases hd : st.doc with
    | none => exact h
    | some d =>
      dsimp only
      split
      · rename_i hcond
        exact stateInv_load_false_truthy _ d rfl hcond.1
      · exact h
  | clearSel =>
    show StateInv (clear_selection st).1 = true
    apply stateInv_intro
    · exact selection_ok_of_none _ rfl
    · exact (@coherent_congr st
        { st with viewer := (viewer_clear_selection st.viewer).1 } rfl rfl rfl).trans
        (stateInv_elim h).2
  | copyRect =>
    show StateInv (copy_rect st).1 = true
    unfold copy_rect
    cases hs : st.viewer.pdf_selection with
    | none => exact h
    | some r =>
      dsimp only
      split
      · exact h
      · exact h
  | openDoc res =>
    show StateInv (open_pdf res st).1 = true
    cases res with
    | cancelled => exact h
    | failed => exact h
    | opened d =>
      show StateInv (load_page false
        { st with doc := some d, current_page_index := 0, scale_factor := 1 }).1 = true
      by_cases he : d.pages = []
      · have hdt : docTruthy (some d) = false := by
          simp [docTruthy, he]
        have heq := (load_page_char false
          { st with doc := some d, current_page_index := 0, scale_factor := 1 }).1 hdt
        rw [heq]
        apply stateInv_intro
        · exact (stateInv_elim h).1
        · exact coherent_of_empty _ d rfl he
      · exact stateInv_load_false_truthy _ d rfl he
  | viewportResized sz =>
    show StateInv { st with viewer := set_viewport_size sz st.viewer } = true
    exact stateInv_viewer_update (set_viewport_size_proj sz st.viewer).1
      (set_viewport_size_proj sz st.viewer).2 h

theorem stateInv_init : StateInv initState = true := by decide

theorem stateInv_run (l : List Op) (st : MainState) (h : StateInv st = true) :
    StateInv (run l st) = true := by
  induction l generalizing st with
  | nil => exact h
  | cons op l ih => exact ih _ (stateInv_step st op h)

/-- C2: the stored selection invariant — the selection is always either
absent or a normalized rectangle with positive width and height fully
contained in the current page's bounds (`selection_ok`, part of `StateInv`):
it holds after any event sequence from the initial state, and every
operation of the program preserves it. -/
theorem selection_invariant :
    (∀ l : List Op, StateInv (run l initState) = true) ∧
    (∀ st op, StateInv st = true → StateInv (step op st).1 = true) :=
  ⟨fun l => stateInv_run l initState stateInv_init,
   fun st op h => stateInv_step st op h⟩

/-- Witness for C2: the invariant after a concrete event sequence, and one
concrete preservation step. -/
theorem selection_invariant_witness :
    StateInv (step Op.clearSel (run sampleOps initState)).1 = true :=
  selection_invariant.2 (run sampleOps initState) Op.clearSel
    (selection_invariant.1 sampleOps)

theorem load_keep_sel (st : MainState) :
    (load_page true st).1.viewer.pdf_selection = st.viewer.pdf_selection := by
  by_cases hdt : docTruthy st.doc = false
  · rw [(load_page_char true st).1 hdt]
  · obtain ⟨d, hd, hne⟩ := docTruthy_not_false st.doc hdt
    exact ((load_page_char true st).2 d hd hne).2.2.2.2.1

theorem zoom_in_sel (st : MainState) :
    (zoom_in st).1.viewer.pdf_selection = st.viewer.pdf_selection := by
  unfold zoom_in
  split
  · rfl
  · exact load_keep_sel _

theorem zoom_out_sel (st : MainState) :
    (zoom_out st).1.viewer.pdf_selection = st.viewer.pdf_selection := by
  unfold zoom_out
  split
  · rfl
  · exact load_keep_sel _

theorem reset_zoom_sel (st : MainState) :
    (reset_zoom st).1.viewer.pdf_selection = st.viewer.pdf_selection := by
  unfold reset_zoom
  split
  · rfl
  · exact load_keep_sel _

/-- C4: with a committed selection, no zoom operation changes the stored
page-space selection rectangle — after `zoom_in`, `zoom_out` or
`reset_zoom` it is identical to what it was before. -/
theorem zoom_preserves_selection (st : MainState) (r : Rect)
    (hsel : st.viewer.pdf_selection = some r) :
    (step Op.zoomIn st).1.viewer.pdf_selection = some r ∧
    (step Op.zoomOut st).1.viewer.pdf_selection = some r ∧
    (step Op.resetZoom st).1.viewer.pdf_selection = some r := by
  refine ⟨?_, ?_, ?_⟩
  · show (zoom_in st).1.viewer.pdf_selection = some r
    rw [zoom_in_sel]
    exact hsel
  · show (zoom_out st).1.viewer.pdf_selection = some r
    rw [zoom_out_sel]
    exact hsel
  · show (reset_zoom st).1.viewer.pdf_selection = some r
    rw [reset_zoom_sel]
    exact hsel

/-- Witness for C4 at a concrete committed selection. -/
theorem zoom_preserves_selection_witness :
    (step Op.zoomIn sampleState).1.viewer.pdf_selection =
      some ⟨10, 10, 50, 50⟩ ∧
    (step Op.zoomOut sampleState).1.viewer.pdf_selection =
      some ⟨10, 10, 50, 50⟩ :=
  ⟨(zoom_preserves_selection sampleState ⟨10, 10, 50, 50⟩ rfl).1,
   (zoom_preserves_selection sampleState ⟨10, 10, 50, 50⟩ rfl).2.1⟩

/-- C5 counterexample: on the last page (one-page document) with a committed
selection, `next_page` is a no-op — the stored selection survives and no
notification is emitted, contradicting the claim that page navigation always
clears the selection. -/
theorem next_page_boundary_keeps_selection :
    (step Op.nextPage sampleState).1.viewer.pdf_selection =
      some ⟨10, 10, 50, 50⟩ ∧
    (step Op.nextPage sampleState).2.sel_events = [] := by
  constructor
  · decide
  · decide

/-- C5 amended: page navigation that actually changes the page (`next_page`
when not on the last page, `prev_page` when not on the first) clears the
stored selection and emits a "no selection" notification; at the boundary
the call is a no-op. -/
theorem nav_clears_selection (st : MainState) (d : Document)
    (hd : st.doc = some d) :
    (d.pages ≠ [] ∧ (st.current_page_index : ℤ) < (d.page_count : ℤ) - 1 →
      (step Op.nextPage st).1.viewer.pdf_selection = none ∧
      (step Op.nextPage st).2.sel_events = [none]) ∧
    (d.pages ≠ [] ∧ 0 < st.current_page_index →
      (step Op.prevPage st).1.viewer.pdf_selection = none ∧
      (step Op.prevPage st).2.sel_events = [none]) := by
  constructor
  · intro hcond
    have hnext : next_page st =
        load_page false { st with current_page_index := st.current_page_index + 1 } := by
      unfold next_page
      rw [hd]
      dsimp only
      rw [if_pos hcond]
    constructor
    · show (next_page st).1.viewer.pdf_selection = none
      rw [hnext]
      exact ((load_page_char false
        { st with current_page_index := st.current_page_index + 1 }).2
          d hd hcond.1).2.2.2.2.1
    · show (next_page st).2 = [none]
      rw [hnext]
      exact ((load_page_char false
        { st with current_page_index := st.current_page_index + 1 }).2
          d hd hcond.1).2.2.2.2.2
  · intro hcond
    have hprev : prev_page st =
        load_page false { st with current_page_index := st.current_page_index - 1 } := by
      unfold prev_page
      rw [hd]
      dsimp only
      rw [if_pos hcond]
    constructor
    · show (prev_page st).1.viewer.pdf_selection = none
      rw [hprev]
      exact ((load_page_char false
        { st with current_page_index := st.current_page_index - 1 }).2
          d hd hcond.1).2.2.2.2.1
    · show (prev_page st).2 = [none]
      rw [hprev]
      exact ((load_page_char false
        { st with current_page_index := st.current_page_index - 1 }).2
          d hd hcond.1).2.2.2.2.2

/-- Witness for the amended C5, from page 1 of a three-page document. -/
theorem nav_clears_selection_witness :
    ((step Op.nextPage midState).1.viewer.pdf_selection = none ∧
     (step Op.nextPage midState).2.sel_events = [none]) ∧
    ((step Op.prevPage midState).1.viewer.pdf_selection = none ∧
     (step Op.prevPage midState).2.sel_events = [none]) :=
  ⟨(nav_clears_selection midState sampleDoc3 rfl).1 (by decide),
   (nav_clears_selection midState sampleDoc3 rfl).2 (by decide)⟩

theorem load_page_scale (keep : Bool) (st : MainState) :
    (load_page keep st).1.scale_factor = st.scale_factor := by
  unfold load_page
  cases hd : st.doc with
  | none => rfl
  | some d =>
    dsimp only
    split
    · rfl
    · split
      · rfl
      · rfl

theorem zoom_in_scale (st : MainState) :
    (zoom_in st).1.scale_factor =
      (if docTruthy st.doc = false then st.scale_factor
       else min (st.scale_factor * 1.25) 6) := by
  unfold zoom_in
  split
  · rfl
  · exact load_page_scale true _

theorem zoom_out_scale (st : MainState) :
    (zoom_out st).1.scale_factor =
      (if docTruthy st.doc = false then st.scale_factor
       else max (st.scale_factor / 1.25) 0.2) := by
  unfold zoom_out
  split
  · rfl
  · exact load_page_scale true _

theorem reset_zoom_scale (st : MainState) :
    (reset_zoom st).1.scale_factor =
      (if docTruthy st.doc = false then st.scale_factor else 1) := by
  unfold reset_zoom
  split
  · rfl
  · exact load_page_scale true _

theorem zoom_step_bounds (st : MainState) (z : ZoomOp)
    (hlo : 0.2 ≤ st.scale_factor) (hhi : st.scale_factor ≤ 6) :
    0.2 ≤ (step (zoomOpToOp z) st).1.scale_factor ∧
    (step (zoomOpToOp z) st).1.scale_factor ≤ 6 := by
  cases z with
  | zin =>
    show 0.2 ≤ (zoom_in st).1.scale_factor ∧ (zoom_in st).1.scale_factor ≤ 6
    rw [zoom_in_scale]
    split
    · exact ⟨hlo, hhi⟩
    · constructor
      · apply le_min
        · nlinarith
        · norm_num
      · exact min_le_right _ _
  | zout =>
    show 0.2 ≤ (zoom_out st).1.scale_factor ∧ (zoom_out st).1.scale_factor ≤ 6
    rw [zoom_out_scale]
    split
    · exact ⟨hlo, hhi⟩
    · constructor
      · exact le_max_right _ _
      · apply max_le
        · rw [div_le_iff₀ (by norm_num : (0:ℚ) < 1.25)]
          nlinarith
        · norm_num
  | reset =>
    show 0.2 ≤ (reset_zoom st).1.scale_factor ∧ (reset_zoom st).1.scale_factor ≤ 6
    rw [reset_zoom_scale]
    split
    · exact ⟨hlo, hhi⟩
    · norm_num

theorem apply_zooms_bounds (l : List ZoomOp) (st : MainState)
    (hlo : 0.2 ≤ st.scale_factor) (hhi : st.scale_factor ≤ 6) :
    0.2 ≤ (apply_zooms l st).scale_factor ∧
    (apply_zooms l st).scale_factor ≤ 6 := by
  induction l generalizing st with
  | nil => exact ⟨hlo, hhi⟩
  | cons z l ih =>
    have hz := zoom_step_bounds st z hlo hhi
    exact ih _ hz.1 hz.2

/-- C6: starting from scale `1.0`, any sequence of zoom operations keeps the
scale factor within `[0.2, 6.0]`; with a (truthy) document loaded, each zoom
step is multiplicative by `1.25` clamped to the bounds and `reset_zoom` sets
the scale to exactly `1`. -/
theorem zoom_scale_claim (st : MainState) (h1 : st.scale_factor = 1)
    (l : List ZoomOp) :
    (0.2 ≤ (apply_zooms l st).scale_factor ∧
     (apply_zooms l st).scale_factor ≤ 6) ∧
    (∀ st' : MainState, docTruthy st'.doc = true →
      (step Op.zoomIn st').1.scale_factor = min (st'.scale_factor * 1.25) 6 ∧
      (step Op.zoomOut st').1.scale_factor = max (st'.scale_factor / 1.25) 0.2 ∧
      (step Op.resetZoom st').1.scale_factor = 1) := by
  constructor
  · apply apply_zooms_bounds
    · rw [h1]
      norm_num
    · rw [h1]
      norm_num
  · intro st' hdt
    have hnf : ¬ docTruthy st'.doc = false := by
      rw [hdt]
      norm_num
    refine ⟨?_, ?_, ?_⟩
    · show (zoom_in st').1.scale_factor = _
      rw [zoom_in_scale, if_neg hnf]
    · show (zoom_out st').1.scale_factor = _
      rw [zoom_out_scale, if_neg hnf]
    · show (reset_zoom st').1.scale_factor = _
      rw [reset_zoom_scale, if_neg hnf]

/-- Witness for C6 at a concrete zoom sequence and a concrete loaded state. -/
theorem zoom_scale_claim_witness :
    (0.2 ≤ (apply_zooms [ZoomOp.zin, ZoomOp.zin, ZoomOp.zout] initState).scale_factor ∧
     (apply_zooms [ZoomOp.zin, ZoomOp.zin, ZoomOp.zout] initState).scale_factor ≤ 6) ∧
    (step Op.resetZoom sampleState).1.scale_factor = 1 :=
  ⟨(zoom_scale_claim initState rfl [ZoomOp.zin, ZoomOp.zin, ZoomOp.zout]).1,
   ((zoom_scale_claim initState rfl []).2 sampleState (by decide)).2.2⟩

/-- C7 counterexample: with committed selection `(10, 10, 50, 50)`,
`copy_rect` puts `fitz.Rect(10.00, 10.00, 50.00, 50.00)` on the clipboard —
not the text form `Rect(10.00, 10.00, 50.00, 50.00)` stated by the claim. -/
theorem copy_rect_text_counterexample :
    (step Op.copyRect sampleState).2.clipboard =
      some "fitz.Rect(10.00, 10.00, 50.00, 50.00)" ∧
    (step Op.copyRect sampleState).2.clipboard ≠
      some "Rect(10.00, 10.00, 50.00, 50.00)" := by
  constructor
  · decide
  · decide

/-- C7 amended: `copy_rect` is a no-op when no committed selection exists;
with a committed selection `(x0, y0, x1, y1)` of positive width (as every
committed selection has) it places on the clipboard exactly
`fitz.Rect(x0, y0, x1, y1)` with each coordinate formatted to 2 decimal
places, leaving the state unchanged. -/
theorem copy_rect_spec (st : MainState) :
    (st.viewer.pdf_selection = none → step Op.copyRect st = (st, noEffects)) ∧
    (∀ r, st.viewer.pdf_selection = some r → r.x0 < r.x1 →
      (step Op.copyRect st).1 = st ∧
      (step Op.copyRect st).2.clipboard = some (rect_text r) ∧
      (step Op.copyRect st).2.sel_events = [] ∧
      (step Op.copyRect st).2.error_shown = false) := by
  constructor
  · intro hn
    show copy_rect st = (st, noEffects)
    unfold copy_rect
    rw [hn]
  · intro r hr hw
    have hne : r ≠ zeroRect := by
      intro hz
      rw [hz] at hw
      norm_num [zeroRect] at hw
    have heq : copy_rect st = (st, ⟨[], some (rect_text r), false⟩) := by
      unfold copy_rect
      rw [hr]
      dsimp only
      rw [if_neg hne]
    show (copy_rect st).1 = st ∧ (copy_rect st).2.clipboard = some (rect_text r) ∧
      (copy_rect st).2.sel_events = [] ∧ (copy_rect st).2.error_shown = false
    rw [heq]
    exact ⟨rfl, rfl, rfl, rfl⟩

/-- Witness for the amended C7: the empty case at the initial state and the
committed case at a concrete selection. -/
theorem copy_rect_spec_witness :
    step Op.copyRect initState = (initState, noEffects) ∧
    (step Op.copyRect sampleState).1 = sampleState ∧
    (step Op.copyRect sampleState).2.clipboard =
      some (rect_text ⟨10, 10, 50, 50⟩) :=
  ⟨(copy_rect_spec initState).1 rfl,
   ((copy_rect_spec sampleState).2 ⟨10, 10, 50, 50⟩ rfl (by norm_num)).1,
   ((copy_rect_spec sampleState).2 ⟨10, 10, 50, 50⟩ rfl (by norm_num)).2.1⟩

/-- C8: with a document already loaded, a failed `open_pdf` shows an error
dialog and leaves the whole program state — document, page index, scale,
committed selection — exactly as it was. -/
theorem open_failed_preserves_state (st : MainState) (d : Document)
    (hdoc : st.doc = some d) :
    (step (Op.openDoc OpenResult.failed) st).1 = st ∧
    (step (Op.openDoc OpenResult.failed) st).2.error_shown = true ∧
    (step (Op.openDoc OpenResult.failed) st).1.doc = some d ∧
    (step (Op.openDoc OpenResult.failed) st).1.current_page_index =
      st.current_page_index ∧
    (step (Op.openDoc OpenResult.failed) st).1.scale_factor = st.scale_factor ∧
    (step (Op.openDoc OpenResult.failed) st).1.viewer.pdf_selection =
      st.viewer.pdf_selection :=
  ⟨rfl, rfl, hdoc, rfl, rfl, rfl⟩

/-- Witness for C8 at a concrete loaded state. -/
theorem open_failed_witness :
    (step (Op.openDoc OpenResult.failed) sampleState).1 = sampleState ∧
    (step (Op.openDoc OpenResult.failed) sampleState).2.error_shown = true :=
  ⟨(open_failed_preserves_state sampleState sampleDoc rfl).1,
   (open_failed_preserves_state sampleState sampleDoc rfl).2.1⟩

/-- C9: `clear_selection` always leaves the stored selection absent and
always emits exactly one "no selection" notification — also when invoked
with no committed selection present. -/
theorem clear_selection_always_notifies (st : MainState) :
    (step Op.clearSel st).1.viewer.pdf_selection = none ∧
    (step Op.clearSel st).2.sel_events = [none] :=
  ⟨rfl, rfl⟩

theorem mousePressEvent_no_pixmap (left : Bool) (p : ℤ × ℤ) (v : ViewerState)
    (hp : v.pixmap = none) : mousePressEvent left p v = v := by
  simp [mousePressEvent, hp]

theorem mouseMoveEvent_no_pixmap (p : ℤ × ℤ) (v : ViewerState)
    (hp : v.pixmap = none) : mouseMoveEvent p v = v := by
  simp [mouseMoveEvent, hp]

theorem mouseReleaseEvent_no_pixmap (left : Bool) (p : ℤ × ℤ) (v : ViewerState)
    (hp : v.pixmap = none) : mouseReleaseEvent left p v = (v, []) := by
  simp [mouseReleaseEvent, hp]

/-- C10: with no rendered pixmap, every pointer event is a no-op — the whole
state (dragging flag and stored selection included) is unchanged and nothing
is emitted; and `_widget_rect_to_pdf` returns `None` whenever no page
rectangle is set, so a drag begun before the page disappeared cannot commit. -/
theorem no_pixmap_pointer_noop (st : MainState) (hp : st.viewer.pixmap = none)
    (left : Bool) (p q : ℤ × ℤ) :
    step (Op.press left p) st = (st, noEffects) ∧
    step (Op.move p) st = (st, noEffects) ∧
    step (Op.release left q) st = (st, noEffects) ∧
    (∀ (s : ℚ) (off : ℚ × ℚ) (rect : Rect),
      widget_rect_to_pdf none s off rect = none) := by
  refine ⟨?_, ?_, ?_, fun s off rect => rfl⟩
  · show ({ st with viewer := mousePressEvent left p st.viewer }, noEffects) =
      (st, noEffects)
    rw [mousePressEvent_no_pixmap left p st.viewer hp]
  · show ({ st with viewer := mouseMoveEvent p st.viewer }, noEffects) =
      (st, noEffects)
    rw [mouseMoveEvent_no_pixmap p st.viewer hp]
  · show ({ st with viewer := (mouseReleaseEvent left q st.viewer).1 },
        (⟨(mouseReleaseEvent left q st.viewer).2, none, false⟩ : Effects)) =
      (st, noEffects)
    rw [mouseReleaseEvent_no_pixmap left q st.viewer hp]
    rfl

/-- Witness for C10 at the initial (no page) state. -/
theorem no_pixmap_pointer_noop_witness :
    step (Op.press true (3, 4)) initState = (initState, noEffects) ∧
    step (Op.release true (9, 9)) initState = (initState, noEffects) :=
  ⟨(no_pixmap_pointer_noop initState rfl true (3, 4) (9, 9)).1,
   (no_pixmap_pointer_noop initState rfl true (3, 4) (9, 9)).2.2.1⟩
